import Mathlib

/-
Verification development for `src/lib/connect-session-sequelize.js`
(a Sequelize-backed session store with encrypted payloads).

The JavaScript source is shallowly embedded below:
  * module-level state (lines 12-17): `defaultOptions` and the secret key
    read from `process.env.SESSION_SECRET`;
  * the `SequelizeStore` constructor (lines 34-60), with the database
    handle modelled by its truthiness and the sequelize table selection
    elided (no claim depends on which table object is picked);
  * the CRUD operations `get` / `set` / `touch` / `destroy` / `length`
    and the expiry sweeper `startExpiringSessions` / `stopExpiringSessions`,
    with the database modelled as a list of rows and the external codec
    (crypto-js AES, `JSON.stringify` / `JSON.parse`) passed in as function
    parameters, since it is third-party code whose only property used by
    the spec is round-trip correctness.

Timestamps and durations are modelled as `Int` (milliseconds); JavaScript
truthiness of a numeric value `v` is `v ≠ 0`, and absent / `null` /
`undefined` values are modelled by `Option.none`.
-/

/-! ### Module-level state (source lines 12-17) -/

/-- The three option fields of the module-level `defaultOptions` object
(source lines 12-16), after merging. -/
structure Options where
  checkExpirationInterval : Int
  expiration : Int
  disableTouch : Bool
deriving DecidableEq, Repr

/-- `defaultOptions` (source lines 12-16): 15 minutes, 24 hours, touch enabled. -/
def defaultOptions : Options where
  checkExpirationInterval := 15 * 60 * 1000
  expiration := 24 * 60 * 60 * 1000
  disableTouch := false

/-- Caller-supplied options object passed to the constructor.  `db` is the
truthiness of `options.db`; an `Option.none` field is a property absent from
the object. -/
structure UserOptions where
  db : Bool
  checkExpirationInterval : Option Int := none
  expiration : Option Int := none
  disableTouch : Option Bool := none
deriving DecidableEq, Repr

/-- `Object.assign(target, src)` restricted to the recognized option fields:
each own property of `src` overwrites the one of `target`, and the *target
object itself* receives the result (`Object.assign` mutates its first
argument, which is how source line 45 behaves). -/
def objectAssignOptions (target : Options) (src : UserOptions) : Options where
  checkExpirationInterval := src.checkExpirationInterval.getD target.checkExpirationInterval
  expiration := src.expiration.getD target.expiration
  disableTouch := src.disableTouch.getD target.disableTouch

/-- Mutable module-level state: the object named `defaultOptions`.
Source line 45 (`Object.assign(defaultOptions, this.options)`) writes into it. -/
structure ModuleState where
  defaultOptions : Options
deriving DecidableEq, Repr

/-- Module state right after module load. -/
def initialModuleState : ModuleState := { defaultOptions := defaultOptions }

/-! ### Timer world and the expiry sweeper (source lines 172-191) -/

/-- The host timer system: `next` is the next fresh timer handle, `active`
the handles of currently scheduled intervals. -/
structure TimerWorld where
  next : Nat
  active : List Nat
deriving DecidableEq, Repr

/-- `clearInterval t`: the handle `t` is descheduled. -/
def clearIntervalW (w : TimerWorld) (t : Nat) : TimerWorld :=
  { w with active := w.active.filter (fun x => x != t) }

/-- `setInterval(...)`: allocates a fresh handle and schedules it. -/
def setIntervalW (w : TimerWorld) : Nat × TimerWorld :=
  (w.next, { next := w.next + 1, active := w.next :: w.active })

/-- The sweeper-related fields of one store instance:
`expirationInterval` is the field of the same name (source lines 176, 189),
and `allocated` records every handle this store ever created, so that
"at most one sweep timer per store" can be stated. -/
structure SweeperState where
  expirationInterval : Option Nat := none
  allocated : List Nat := []
deriving DecidableEq, Repr

/-- `stopExpiringSessions` (source lines 185-191): clear the interval if the
field is set (a timer handle object is always truthy), then null the field. -/
def stopExpiringSessions (s : SweeperState) (w : TimerWorld) :
    SweeperState × TimerWorld :=
  match s.expirationInterval with
  | some t => ({ s with expirationInterval := none }, clearIntervalW w t)
  | none => (s, w)

/-- `startExpiringSessions` (source lines 172-183): stop any previous
interval first, then schedule a new one only when
`checkExpirationInterval > 0`. -/
def startExpiringSessions (interval : Int) (s : SweeperState) (w : TimerWorld) :
    SweeperState × TimerWorld :=
  let sw := stopExpiringSessions s w
  if interval > 0 then
    let tw := setIntervalW sw.2
    ({ expirationInterval := some tw.1, allocated := tw.1 :: sw.1.allocated }, tw.2)
  else sw

/-! ### The constructor (source lines 34-60) -/

/-- The `SequelizeStore` constructor.  It receives the module state, the
module-level secret key (which, as the body shows, it never consults), the
caller options and the timer world; it throws (`Except.error`) exactly when
`options.db` is falsy, merges the options *into* the module-level
`defaultOptions` object, and starts the sweeper of the new instance (whose
`expirationInterval` field starts out undefined).  The sequelize model
selection (source lines 50-59) is elided: it performs no check and no
claim depends on it. -/
def storeConstructor (ms : ModuleState) (_secretKey : Option String)
    (opts : UserOptions) (w : TimerWorld) :
    Except String (Options × ModuleState × SweeperState × TimerWorld) :=
  if opts.db = false then
    .error "Database connection is required"
  else
    let merged := objectAssignOptions ms.defaultOptions opts
    let sw := startExpiringSessions merged.checkExpirationInterval
      { expirationInterval := none, allocated := [] } w
    .ok (merged, { defaultOptions := merged }, sw.1, sw.2)

/-- Whether a constructor run threw. -/
def isErr {α : Type} : Except String α → Bool
  | .error _ => true
  | .ok _ => false

/-! ### Payloads and the expiration policy (source lines 193-198) -/

/-- The `cookie` sub-object of a session payload.  `expires` is the nested
expiry hint; `none` models an absent / null / undefined property, and a
numeric value is truthy iff it is nonzero. -/
structure Cookie where
  expires : Option Int
deriving DecidableEq, Repr

/-- A session payload: the `cookie` property the store inspects (absent when
`none`) plus the remaining caller data, opaque to the store. -/
structure Payload (α : Type) where
  cookie : Option Cookie := none
  rest : α
deriving DecidableEq, Repr

/-- `expiration(data)` (source lines 193-198): if `data.cookie &&
data.cookie.expires` is truthy, return the hint verbatim; otherwise return
`Date.now() + this.options.expiration`.  A numeric hint equal to `0` is
falsy in JavaScript, so it takes the fallback branch. -/
def expiration (ttl now : Int) (p : Payload α) : Int :=
  match p.cookie with
  | some c =>
    match c.expires with
    | some e => if e ≠ 0 then e else now + ttl
    | none => now + ttl
  | none => now + ttl

/-! ## Claim C1 — missing secret key at construction -/

/-- C1 counterexample: with `SESSION_SECRET` absent (`none`) and a truthy
`db`, the constructor does *not* throw — it returns a fully constructed
store (merged options, mutated module state, a scheduled sweeper).  This
refutes the claim that construction fails with a `ConfigurationError` when
the secret key is absent. -/
theorem c1_counterexample :
    storeConstructor initialModuleState none
      { db := true } { next := 0, active := [] } =
      .ok (defaultOptions, { defaultOptions := defaultOptions },
        { expirationInterval := some 0, allocated := [0] },
        { next := 1, active := [0] }) := by
  rfl

/-- C1 (amended): construction fails synchronously iff the database handle
is missing; the secret key is never consulted by the constructor, so its
absence causes no error at store setup. -/
theorem c1_amended (ms : ModuleState) (secretKey : Option String)
    (opts : UserOptions) (w : TimerWorld) :
    isErr (storeConstructor ms secretKey opts w) = !opts.db := by
  cases h : opts.db <;> simp [storeConstructor, isErr, h]

/-! ## Claim C2 — defaults are (not) immutable process-wide state -/

/-- The recognized option values observed by a second store constructed with
an empty options object, after a first store was constructed with
`{ db, expiration: 1000 }`. -/
def secondStoreOptions : Option Options :=
  match storeConstructor initialModuleState none
      { db := true, expiration := some 1000 } { next := 0, active := [] } with
  | .ok (_, ms1, _, w1) =>
    match storeConstructor ms1 none { db := true } w1 with
    | .ok (o2, _, _, _) => some o2
    | .error _ => none
  | .error _ => none

/-- C2: `Object.assign(defaultOptions, this.options)` (source line 45)
mutates the module-level `defaultOptions` object in place, so a store
constructed *after* one that overrode `expiration` to `1000` observes
`expiration = 1000` instead of the documented default `86400000`.  The
defaults are therefore not immutable process-wide state. -/
theorem c2_defaults_mutated :
    secondStoreOptions =
      some { checkExpirationInterval := 900000, expiration := 1000,
             disableTouch := false } ∧
    defaultOptions.expiration = 86400000 := by
  exact ⟨rfl, rfl⟩

/-! ## Claim C5 — the expiration policy -/

/-- C5 counterexample: the payload `{ cookie: { expires: 0 } }` carries a
present expiry hint `0`, yet `expiration` does not return it verbatim: `0`
is falsy in JavaScript, so the code falls back to `now + ttl`
(`100 + 50 = 150`). -/
theorem c5_counterexample :
    expiration 50 100 ({ cookie := some { expires := some 0 }, rest := () } :
      Payload Unit) = 150 ∧ (150 : Int) ≠ 0 := by
  exact ⟨rfl, by decide⟩

/-- C5 (amended): `expiration(payload)` returns the nested expiry hint
verbatim when it is present *and truthy* (nonzero); when the hint is absent,
null, or falsy, it returns `now` plus the configured expiration duration,
whose default is 24 hours (86400000 ms). -/
theorem c5_amended (ttl now : Int) {α : Type} (p : Payload α) :
    (∀ c e, p.cookie = some c → c.expires = some e → e ≠ 0 →
      expiration ttl now p = e) ∧
    (∀ c, p.cookie = some c → c.expires = some 0 →
      expiration ttl now p = now + ttl) ∧
    (∀ c, p.cookie = some c → c.expires = none →
      expiration ttl now p = now + ttl) ∧
    (p.cookie = none → expiration ttl now p = now + ttl) ∧
    defaultOptions.expiration = 86400000 := by
  refine ⟨?_, ?_, ?_, ?_, rfl⟩
  · intro c e hc he hne
    simp [expiration, hc, he, hne]
  · intro c hc he
    simp [expiration, hc, he]
  · intro c hc he
    simp [expiration, hc, he]
  · intro hc
    simp [expiration, hc]

/-- C5 witness: a truthy hint `7` is returned verbatim. -/
theorem c5_amended_witness :
    expiration 50 100 ({ cookie := some { expires := some 7 }, rest := () } :
      Payload Unit) = 7 := by
  exact (c5_amended 50 100 _).1 { expires := some 7 } 7 rfl rfl (by decide)

/-! ### The session table (source lines 67-129, 146-163) -/

/-- One row of the session table: `sid` (primary key), `data` (the encrypted
serialized blob), `expires`, plus caller-defined extra columns modelled as
an association list. -/
structure Row where
  sid : String
  data : String
  expires : Int
  extras : List (String × String)
deriving DecidableEq, Repr

/-- The session table. -/
abbrev Db := List Row

/-- `sessionModel.findOne({ where: { sid } })`. -/
def findOne (db : Db) (sid : String) : Option Row :=
  db.find? (fun r => r.sid == sid)

/-- The `defaults` object built by `set` (source lines 94-97): the encrypted
blob, the computed `expires`, and any extra columns added by the caller's
`extendDefaultFields`. -/
structure Defaults where
  data : String
  expires : Int
  extras : List (String × String)
deriving DecidableEq, Repr

/-- Write an extra column value into an association list (what assigning
`sessionTemp[key] = v` does to the row's extra columns). -/
def setExtra : List (String × String) → String → String → List (String × String)
  | [], k, v => [(k, v)]
  | (k', v') :: rest, k, v =>
    if k' = k then (k, v) :: rest else (k', v') :: setExtra rest k v

/-- The `Object.keys(defaults).forEach` loop of `set` (source lines
108-117) restricted to the extra-column keys: each key of `defaults` whose
stored value differs is assigned and marks the session changed.  The
accumulator is the session instance together with the `changed` flag. -/
def applyExtras : List (String × String) → Row → Bool → Row × Bool
  | [], r, c => (r, c)
  | (k, v) :: rest, r, c =>
    if r.extras.lookup k != some v then
      applyExtras rest { r with extras := setExtra r.extras k v } true
    else
      applyExtras rest r c

/-- The comparison the `set` update step performs on extra columns: some key
of `ds` whose stored value differs. -/
def extrasDiffer (ds stored : List (String × String)) : Bool :=
  ds.any (fun kv => stored.lookup kv.1 != some kv.2)

/-- The `.spread(session => ...)` body of `set` (source lines 105-127) on
the instance returned by `findCreateFind`: compare `expires` and every
extra column of `defaults` (the `data` key is skipped by the loop), then
compare `data` against the new encrypted blob, and save — refreshing
`expires` to the freshly computed value — only when something changed. -/
def updateExisting (row : Row) (d : Defaults) (encdata : String) (expires : Int) :
    Row × Bool :=
  let a : Row × Bool :=
    if row.expires != d.expires then ({ row with expires := d.expires }, true)
    else (row, false)
  let b := applyExtras d.extras a.1 a.2
  let c : Row × Bool :=
    if b.1.data != encdata then ({ b.1 with data := encdata }, true) else b
  if c.2 then ({ c.1 with expires := expires }, true) else c

/-- The `defaults` object of `set` (source lines 94-97): encrypted blob and
computed `expires`, optionally transformed by `extendDefaultFields`. -/
def mkDefaults (encrypt : String → String) (stringify : Payload α → String)
    (ext : Option (Defaults → Payload α → Defaults)) (ttl now : Int)
    (P : Payload α) : Defaults :=
  let d0 : Defaults :=
    { data := encrypt (stringify P), expires := expiration ttl now P, extras := [] }
  match ext with
  | some f => f d0 P
  | none => d0

/-- The value `set` resolves with, plus the final table state and whether
the update step issued a `save()`. -/
structure SetResult where
  db : Db
  row : Row
  wrote : Bool
deriving DecidableEq, Repr

/-- `set(sid, data, fn)` (source lines 85-129): serialize and encrypt the
payload, compute `expires`, build `defaults`, `findCreateFind` on `sid`
(creating the row from `defaults` when absent), then run the conditional
update step on the returned instance — also on a freshly created one, since
`.spread` receives it either way. -/
def setModel (encrypt : String → String) (stringify : Payload α → String)
    (ext : Option (Defaults → Payload α → Defaults)) (ttl now : Int)
    (db : Db) (sid : String) (P : Payload α) : SetResult :=
  let stringData := stringify P
  let expires := expiration ttl now P
  let encryptedStringData := encrypt stringData
  let d := mkDefaults encrypt stringify ext ttl now P
  match findOne db sid with
  | none =>
    let row0 : Row :=
      { sid := sid, data := d.data, expires := d.expires, extras := d.extras }
    let ru := updateExisting row0 d encryptedStringData expires
    { db := db ++ [ru.1], row := ru.1, wrote := ru.2 }
  | some row =>
    let ru := updateExisting row d encryptedStringData expires
    { db := db.map (fun r => if r.sid == sid then ru.1 else r),
      row := ru.1, wrote := ru.2 }

/-- Result of `get`: no row, a decoded payload, or a codec failure
(decryption producing non-UTF8 garbage or `JSON.parse` throwing). -/
inductive GetResult (α : Type) where
  | notFound
  | found (payload : α)
  | decodeError
deriving DecidableEq, Repr

/-- `get(sid, fn)` (source lines 67-82): `findOne`; `null` when absent;
otherwise decrypt the stored blob and parse the plaintext. -/
def getModel (decrypt : String → Option String) (parse : String → Option α)
    (db : Db) (sid : String) : GetResult α :=
  match findOne db sid with
  | none => .notFound
  | some s =>
    match decrypt s.data with
    | none => .decodeError
    | some txt =>
      match parse txt with
      | none => .decodeError
      | some p => .found p

/-! ### Lemmas about the update step of `set` -/

theorem applyExtras_data (ds : List (String × String)) (r : Row) (c : Bool) :
    (applyExtras ds r c).1.data = r.data := by
  induction ds generalizing r c with
  | nil => rfl
  | cons kv rest ih =>
    obtain ⟨k, v⟩ := kv
    by_cases h : r.extras.lookup k != some v <;> simp [applyExtras, h, ih]

theorem applyExtras_sid (ds : List (String × String)) (r : Row) (c : Bool) :
    (applyExtras ds r c).1.sid = r.sid := by
  induction ds generalizing r c with
  | nil => rfl
  | cons kv rest ih =>
    obtain ⟨k, v⟩ := kv
    by_cases h : r.extras.lookup k != some v <;> simp [applyExtras, h, ih]

theorem applyExtras_flag_true (ds : List (String × String)) (r : Row) :
    (applyExtras ds r true).2 = true := by
  induction ds generalizing r with
  | nil => rfl
  | cons kv rest ih =>
    obtain ⟨k, v⟩ := kv
    by_cases h : r.extras.lookup k != some v <;> simp [applyExtras, h, ih]

theorem applyExtras_flag_false (ds : List (String × String)) (r : Row) :
    (applyExtras ds r false).2 = extrasDiffer ds r.extras := by
  induction ds generalizing r with
  | nil => rfl
  | cons kv rest ih =>
    obtain ⟨k, v⟩ := kv
    by_cases h : r.extras.lookup k != some v
    · simp [applyExtras, extrasDiffer, h, applyExtras_flag_true]
    · simp [applyExtras, extrasDiffer, h, ih, extrasDiffer]

theorem applyExtras_row_of_flag_false (ds : List (String × String)) (r : Row)
    (h : (applyExtras ds r false).2 = false) : (applyExtras ds r false).1 = r := by
  induction ds generalizing r with
  | nil => rfl
  | cons kv rest ih =>
    obtain ⟨k, v⟩ := kv
    by_cases hkv : r.extras.lookup k != some v
    · exfalso
      rw [show applyExtras ((k, v) :: rest) r false =
          applyExtras rest { r with extras := setExtra r.extras k v } true by
            simp [applyExtras, hkv],
        applyExtras_flag_true] at h
      simp at h
    · rw [show applyExtras ((k, v) :: rest) r false = applyExtras rest r false by
        simp [applyExtras, hkv]] at h ⊢
      exact ih r h

theorem updateExisting_wrote (row : Row) (d : Defaults) (encdata : String) (e : Int) :
    (updateExisting row d encdata e).2 =
      ((row.expires != d.expires) || extrasDiffer d.extras row.extras ||
        (row.data != encdata)) := by
  by_cases h1 : row.expires != d.expires <;>
  by_cases hx : extrasDiffer d.extras row.extras <;>
  by_cases h2 : row.data != encdata <;>
  simp [updateExisting, h1, hx, h2, applyExtras_flag_true, applyExtras_flag_false,
    applyExtras_data]

theorem updateExisting_data (row : Row) (d : Defaults) (encdata : String) (e : Int) :
    (updateExisting row d encdata e).1.data = encdata := by
  by_cases h1 : row.expires != d.expires <;>
  by_cases hx : extrasDiffer d.extras row.extras <;>
  by_cases h2 : row.data != encdata <;>
  simp_all [updateExisting, applyExtras_flag_true, applyExtras_flag_false,
    applyExtras_data]

theorem updateExisting_sid (row : Row) (d : Defaults) (encdata : String) (e : Int) :
    (updateExisting row d encdata e).1.sid = row.sid := by
  by_cases h1 : row.expires != d.expires <;>
  by_cases hx : extrasDiffer d.extras row.extras <;>
  by_cases h2 : row.data != encdata <;>
  simp [updateExisting, h1, hx, h2, applyExtras_flag_true, applyExtras_flag_false,
    applyExtras_sid, applyExtras_data]

theorem updateExisting_expires_of_wrote (row : Row) (d : Defaults) (encdata : String)
    (e : Int) (h : (updateExisting row d encdata e).2 = true) :
    (updateExisting row d encdata e).1.expires = e := by
  by_cases h1 : row.expires != d.expires <;>
  by_cases hx : extrasDiffer d.extras row.extras <;>
  by_cases h2 : row.data != encdata <;>
  simp_all [updateExisting, applyExtras_flag_true, applyExtras_flag_false,
    applyExtras_data]

theorem updateExisting_row_of_not_wrote (row : Row) (d : Defaults) (encdata : String)
    (e : Int) (h : (updateExisting row d encdata e).2 = false) :
    (updateExisting row d encdata e).1 = row := by
  by_cases h1 : row.expires != d.expires <;>
  by_cases hx : extrasDiffer d.extras row.extras <;>
  by_cases h2 : row.data != encdata <;>
  simp_all [updateExisting, applyExtras_flag_true, applyExtras_flag_false,
    applyExtras_data, applyExtras_row_of_flag_false]

/-! ### Lemmas about `findOne` -/

theorem findOne_some_sid (db : Db) (sid : String) (r : Row)
    (h : findOne db sid = some r) : r.sid = sid := by
  unfold findOne at h
  have := List.find?_some h
  simpa using this

theorem findOne_append_none (db : Db) (sid : String) (h : findOne db sid = none)
    (row : Row) (hr : row.sid = sid) : findOne (db ++ [row]) sid = some row := by
  induction db with
  | nil => simp [findOne, List.find?, hr]
  | cons a tl ih =>
    unfold findOne at h ⊢
    cases hpa : (a.sid == sid) with
    | true => simp [List.find?_cons, hpa] at h
    | false =>
      simp only [List.find?_cons, hpa, List.cons_append] at h ⊢
      exact ih h

theorem findOne_map_replace (db : Db) (sid : String) (row row' : Row)
    (h : findOne db sid = some row) (h2 : row'.sid = sid) :
    findOne (db.map (fun r => if r.sid == sid then row' else r)) sid = some row' := by
  induction db with
  | nil => simp [findOne] at h
  | cons a tl ih =>
    unfold findOne at h ⊢
    by_cases hsa : a.sid = sid
    · simp [List.find?_cons, hsa, h2]
    · have hpa : (a.sid == sid) = false := by simpa using hsa
      simp only [List.find?_cons, hpa] at h
      simp only [List.map_cons]
      rw [if_neg (by simp [hpa])]
      rw [List.find?_cons_of_neg _ (by simp [hpa])]
      exact ih h

/-- Evaluation lemma for `get` on a present row whose blob decodes. -/
theorem getModel_found {α : Type} (decrypt : String → Option String)
    (parse : String → Option α) (db : Db) (sid : String) (row : Row)
    (hf : findOne db sid = some row) (txt : String) (hd : decrypt row.data = some txt)
    (P : α) (hp : parse txt = some P) : getModel decrypt parse db sid = .found P := by
  unfold getModel
  simp only [hf, hd, hp]

/-! ## Claim C3 — change detection in `set` -/

/-- C3 counterexample: a row for `"s"` exists whose stored blob `"E"` equals
the new encrypted blob and whose (empty) extra columns all match, yet the
update step still issues a `save()` (`wrote = true`), because the loop over
`Object.keys(defaults)` also compares the freshly computed `expires`
(`150`) against the stored one (`5`).  This refutes "a database write is
issued only if the encrypted blob or an extra-column value changed". -/
theorem c3_counterexample :
    (mkDefaults (fun _ => "E") (fun _ => "") none 50 100
      ({ cookie := none, rest := () } : Payload Unit)).data = "E" ∧
    (mkDefaults (fun _ => "E") (fun _ => "") none 50 100
      ({ cookie := none, rest := () } : Payload Unit)).extras = [] ∧
    (setModel (fun _ => "E") (fun _ => "") none 50 100
      [{ sid := "s", data := "E", expires := 5, extras := [] }] "s"
      { cookie := none, rest := () }).wrote = true := by
  exact ⟨rfl, rfl, by decide⟩

/-- C3 (amended): when a row for `sid` exists, `set` compares the new
encrypted blob, the newly computed `expires`, and every extra-column value
of `defaults` against the stored ones, and issues a database write iff any
of them differs; when a write is issued, `expires` is refreshed to the
newly computed `expiration(payload)` and `data` to the new blob, and when
no write is issued the row is left untouched. -/
theorem c3_amended {α : Type} (encrypt : String → String)
    (stringify : Payload α → String)
    (ext : Option (Defaults → Payload α → Defaults)) (ttl now : Int)
    (db : Db) (sid : String) (P : Payload α) (row : Row)
    (h : findOne db sid = some row) :
    ((setModel encrypt stringify ext ttl now db sid P).wrote = true ↔
      (row.expires ≠ (mkDefaults encrypt stringify ext ttl now P).expires ∨
       extrasDiffer (mkDefaults encrypt stringify ext ttl now P).extras
         row.extras = true ∨
       row.data ≠ encrypt (stringify P))) ∧
    ((setModel encrypt stringify ext ttl now db sid P).wrote = true →
      (setModel encrypt stringify ext ttl now db sid P).row.expires =
        expiration ttl now P ∧
      (setModel encrypt stringify ext ttl now db sid P).row.data =
        encrypt (stringify P)) ∧
    ((setModel encrypt stringify ext ttl now db sid P).wrote = false →
      (setModel encrypt stringify ext ttl now db sid P).row = row) := by
  have hw : (setModel encrypt stringify ext ttl now db sid P).wrote =
      (updateExisting row (mkDefaults encrypt stringify ext ttl now P)
        (encrypt (stringify P)) (expiration ttl now P)).2 := by
    simp only [setModel, h]
  have hr : (setModel encrypt stringify ext ttl now db sid P).row =
      (updateExisting row (mkDefaults encrypt stringify ext ttl now P)
        (encrypt (stringify P)) (expiration ttl now P)).1 := by
    simp only [setModel, h]
  refine ⟨?_, ?_, ?_⟩
  · rw [hw, updateExisting_wrote]
    simp [bne_iff_ne, or_assoc]
  · intro hwr
    rw [hw] at hwr
    rw [hr]
    exact ⟨updateExisting_expires_of_wrote _ _ _ _ hwr,
      updateExisting_data _ _ _ _⟩
  · intro hwr
    rw [hw] at hwr
    rw [hr]
    exact updateExisting_row_of_not_wrote _ _ _ _ (by simpa using hwr)

/-- C3 witness: on a stored row with a different blob, the amended theorem
applies and yields a write. -/
theorem c3_amended_witness :
    (setModel (fun _ => "NEW") (fun _ => "") none 50 100
      [{ sid := "s", data := "OLD", expires := 5, extras := [] }] "s"
      ({ cookie := none, rest := () } : Payload Unit)).wrote = true := by
  exact (c3_amended (fun _ => "NEW") (fun _ => "") none 50 100
    [{ sid := "s", data := "OLD", expires := 5, extras := [] }] "s"
    { cookie := none, rest := () }
    { sid := "s", data := "OLD", expires := 5, extras := [] }
    (by decide)).1.mpr (Or.inr (Or.inr (by decide)))

/-! ## Claim C4 — `set` then `get` round-trips the payload -/

/-- C4: for every payload, `set(sid, P)` followed by `get(sid)` returns
`P`, given that the external codec round-trips on `P` (decrypting what was
encrypted returns the plaintext, and parsing what was serialized returns
the payload).  This holds for any prior table state and any
`extendDefaultFields`, because the update step always ends with the row's
`data` equal to the new encrypted blob. -/
theorem c4_roundtrip {α : Type} (encrypt : String → String)
    (decrypt : String → Option String) (stringify : Payload α → String)
    (parse : String → Option (Payload α))
    (ext : Option (Defaults → Payload α → Defaults)) (ttl now : Int)
    (db : Db) (sid : String) (P : Payload α)
    (hdec : decrypt (encrypt (stringify P)) = some (stringify P))
    (hparse : parse (stringify P) = some P) :
    getModel decrypt parse (setModel encrypt stringify ext ttl now db sid P).db
      sid = .found P := by
  cases h : findOne db sid with
  | none =>
    have hdb : (setModel encrypt stringify ext ttl now db sid P).db =
        db ++ [(updateExisting
          { sid := sid, data := (mkDefaults encrypt stringify ext ttl now P).data,
            expires := (mkDefaults encrypt stringify ext ttl now P).expires,
            extras := (mkDefaults encrypt stringify ext ttl now P).extras }
          (mkDefaults encrypt stringify ext ttl now P)
          (encrypt (stringify P)) (expiration ttl now P)).1] := by
      simp only [setModel, h]
    have hsid : (updateExisting
        { sid := sid, data := (mkDefaults encrypt stringify ext ttl now P).data,
          expires := (mkDefaults encrypt stringify ext ttl now P).expires,
          extras := (mkDefaults encrypt stringify ext ttl now P).extras }
        (mkDefaults encrypt stringify ext ttl now P)
        (encrypt (stringify P)) (expiration ttl now P)).1.sid = sid := by
      rw [updateExisting_sid]
    rw [hdb]
    refine getModel_found decrypt parse _ sid _
      (findOne_append_none db sid h _ hsid) (stringify P) ?_ P hparse
    rw [updateExisting_data]
    exact hdec
  | some row =>
    have hdb : (setModel encrypt stringify ext ttl now db sid P).db =
        db.map (fun r => if r.sid == sid then
          (updateExisting row (mkDefaults encrypt stringify ext ttl now P)
            (encrypt (stringify P)) (expiration ttl now P)).1 else r) := by
      simp only [setModel, h]
    have hsid : (updateExisting row (mkDefaults encrypt stringify ext ttl now P)
        (encrypt (stringify P)) (expiration ttl now P)).1.sid = sid := by
      rw [updateExisting_sid]
      exact findOne_some_sid db sid row h
    rw [hdb]
    refine getModel_found decrypt parse _ sid _
      (findOne_map_replace db sid row _ h hsid) (stringify P) ?_ P hparse
    rw [updateExisting_data]
    exact hdec

/-- C4 witness: a concrete round-trip with an identity cipher and a
constant serializer that is inverse-parsed on the payload in question. -/
theorem c4_roundtrip_witness :
    getModel some (fun _ => some ({ cookie := none, rest := () } : Payload Unit))
      (setModel (fun s => s) (fun _ => "x") none 1 2 [] "a"
        { cookie := none, rest := () }).db "a" =
      .found { cookie := none, rest := () } := by
  exact c4_roundtrip (fun s => s) some (fun _ => "x")
    (fun _ => some { cookie := none, rest := () }) none 1 2 [] "a"
    { cookie := none, rest := () } rfl rfl

/-! ### `touch`, `destroy`, `length`, `clearExpiredSessions`
(source lines 131-170) -/

/-- How a store operation completes towards its caller:
`promise` — the operation returns its promise, with the optional callback
attached through the external `.asCallback(fn)` adapter (an absent callback
is tolerated); `syncCallback e` — the callback was invoked synchronously
with error argument `e` and its result returned; `throw msg` — a
synchronous exception escaped the method. -/
inductive CallOutcome where
  | promise
  | syncCallback (e : Option String)
  | throw (msg : String)
deriving DecidableEq, Repr

/-- The `.asCallback(fn)` ending shared by `get`, `set`, `destroy` and
`length` (source lines 81, 128, 158, 162): the promise is returned and an
absent callback is simply not invoked — never an error. -/
def asCallbackOutcome (_hasCallback : Bool) : CallOutcome := .promise

/-- `touch(sid, data, fn)` (source lines 131-144): when `disableTouch` is
set, return `fn()` directly — a synchronous no-error callback invocation if
`fn` was supplied, a TypeError if not, and no database access either way;
otherwise compute `expires` and run
`sessionModel.update({ expires }, { where: { sid } })`, which sets only the
`expires` column of the matching rows and resolves with the affected row
count.  Returns the new table, the affected row count, and the outcome. -/
def touchModel {α : Type} (disableTouch : Bool) (ttl now : Int) (db : Db)
    (sid : String) (p : Payload α) (hasCallback : Bool) :
    Db × Nat × CallOutcome :=
  if disableTouch then
    (db, 0,
      if hasCallback then .syncCallback none else .throw "fn is not a function")
  else
    let e := expiration ttl now p
    (db.map fun r => if r.sid == sid then { r with expires := e } else r,
     (db.filter fun r => r.sid == sid).length, .promise)

/-- `destroy(sid, fn)` (source lines 146-159): `findOne`; when no row is
found the session is considered destroyed already and the promise resolves
with `null`; otherwise the found row is deleted. -/
def destroyModel (db : Db) (sid : String) (_hasCallback : Bool) :
    Db × CallOutcome :=
  match findOne db sid with
  | none => (db, .promise)
  | some _ => (db.eraseP (fun r => r.sid == sid), .promise)

/-- `length(fn)` (source lines 161-163): `sessionModel.count()`. -/
def lengthModel (db : Db) : Nat := db.length

/-- `clearExpiredSessions` (source lines 165-170): delete every row whose
`expires` is strictly earlier than the current time. -/
def clearExpiredSessions (db : Db) (now : Int) : Db :=
  db.filter (fun r => !(decide (r.expires < now)))

/-! ### Helper lemmas for the `touch` frame property -/

theorem map_comp_eq {β : Type} (g : Row → β) (f : Row → Row)
    (hg : ∀ r, g (f r) = g r) (db : Db) : (db.map f).map g = db.map g := by
  induction db with
  | nil => rfl
  | cons a tl ih => simp [hg, ih]

theorem map_eq_self_of (f : Row → Row) (db : Db) (h : ∀ r ∈ db, f r = r) :
    db.map f = db := by
  induction db with
  | nil => rfl
  | cons a tl ih =>
    simp only [List.map_cons, h a (by simp)]
    rw [ih (fun r hr => h r (by simp [hr]))]

/-! ## Claim C6 — `touch` updates only `expires` of the matching row -/

/-- C6: with touch enabled, `touch(sid, payload)` leaves the table's length
and every row's `sid`, `data` and extra columns unchanged, keeps
non-matching rows identical, sets `expires` of every row matching `sid` to
the newly computed expiration, and when no row matches, the table is
untouched, zero rows are affected, and the call still resolves as a
promise — not an error. -/
theorem c6_touch_frame {α : Type} (ttl now : Int) (db : Db) (sid : String)
    (p : Payload α) (hc : Bool) :
    (touchModel false ttl now db sid p hc).1.length = db.length ∧
    (touchModel false ttl now db sid p hc).1.map Row.sid = db.map Row.sid ∧
    (touchModel false ttl now db sid p hc).1.map Row.data = db.map Row.data ∧
    (touchModel false ttl now db sid p hc).1.map Row.extras =
      db.map Row.extras ∧
    (∀ r ∈ db, r.sid ≠ sid → r ∈ (touchModel false ttl now db sid p hc).1) ∧
    (∀ r ∈ (touchModel false ttl now db sid p hc).1, r.sid = sid →
      r.expires = expiration ttl now p) ∧
    ((∀ r ∈ db, r.sid ≠ sid) →
      (touchModel false ttl now db sid p hc).1 = db ∧
      (touchModel false ttl now db sid p hc).2.1 = 0) ∧
    (touchModel false ttl now db sid p hc).2.2 = CallOutcome.promise := by
  have ht : touchModel false ttl now db sid p hc =
      (db.map fun r =>
        if r.sid == sid then { r with expires := expiration ttl now p } else r,
       (db.filter fun r => r.sid == sid).length, CallOutcome.promise) := by
    simp [touchModel]
  rw [ht]
  refine ⟨List.length_map _ _, ?_, ?_, ?_, ?_, ?_, ?_, rfl⟩
  · exact map_comp_eq _ _ (fun r => by by_cases h : r.sid = sid <;> simp [h]) db
  · exact map_comp_eq _ _ (fun r => by by_cases h : r.sid = sid <;> simp [h]) db
  · exact map_comp_eq _ _ (fun r => by by_cases h : r.sid = sid <;> simp [h]) db
  · intro r hr hne
    have hfr : (if r.sid == sid then
        { r with expires := expiration ttl now p } else r) = r := by
      simp [hne]
    exact hfr ▸ List.mem_map_of_mem _ hr
  · intro r hr hsid
    obtain ⟨a, ha, rfl⟩ := List.mem_map.mp hr
    by_cases h : a.sid = sid
    · simp [h]
    · have : (if a.sid == sid then
          { a with expires := expiration ttl now p } else a) = a := by simp [h]
      rw [this] at hsid ⊢
      exact absurd hsid h
  · intro hall
    constructor
    · exact map_eq_self_of _ db (fun r hr => by simp [hall r hr])
    · have : db.filter (fun r => r.sid == sid) = [] := by
        rw [List.filter_eq_nil_iff]
        intro a ha
        simp [hall a ha]
      rw [this]
      rfl

/-- C6 witness: a table with one non-matching row is untouched and zero
rows are affected. -/
theorem c6_touch_frame_witness :
    (touchModel false 10 100
      [{ sid := "a", data := "d", expires := 1, extras := [] }] "b"
      ({ cookie := none, rest := () } : Payload Unit) true).1 =
      [{ sid := "a", data := "d", expires := 1, extras := [] }] ∧
    (touchModel false 10 100
      [{ sid := "a", data := "d", expires := 1, extras := [] }] "b"
      ({ cookie := none, rest := () } : Payload Unit) true).2.1 = 0 := by
  exact (c6_touch_frame 10 100
    [{ sid := "a", data := "d", expires := 1, extras := [] }] "b"
    { cookie := none, rest := () } true).2.2.2.2.2.2.1 (by decide)

/-! ## Claim C7 — `touch` with `disableTouch` is a successful no-op -/

/-- C7: with `disableTouch` configured and a callback supplied, `touch`
performs zero database writes (the table is returned unchanged and no row
is affected) and still resolves successfully: the callback is invoked with
no error argument. -/
theorem c7_disable_touch_noop {α : Type} (ttl now : Int) (db : Db)
    (sid : String) (p : Payload α) :
    touchModel true ttl now db sid p true =
      (db, 0, CallOutcome.syncCallback none) := by
  simp [touchModel]

/-! ## Claim C8 — `destroy` of an absent sid succeeds; `get` stays absent -/

/-- C8: when no row for `sid` exists, `destroy(sid)` leaves the table
unchanged and resolves successfully, and `get(sid)` returns absent
(`notFound`), not an error. -/
theorem c8_destroy_idempotent {α : Type} (db : Db) (sid : String) (hc : Bool)
    (decrypt : String → Option String) (parse : String → Option α)
    (h : findOne db sid = none) :
    destroyModel db sid hc = (db, CallOutcome.promise) ∧
    getModel decrypt parse db sid = GetResult.notFound := by
  constructor
  · unfold destroyModel
    simp only [h]
  · unfold getModel
    simp only [h]

/-- C8 witness: destroying `"b"` in a table that only holds `"a"`. -/
theorem c8_destroy_idempotent_witness :
    destroyModel [{ sid := "a", data := "d", expires := 1, extras := [] }]
      "b" true =
      ([{ sid := "a", data := "d", expires := 1, extras := [] }],
        CallOutcome.promise) ∧
    getModel some (fun _ => some (0 : Nat))
      [{ sid := "a", data := "d", expires := 1, extras := [] }] "b" =
      GetResult.notFound := by
  exact c8_destroy_idempotent _ "b" true some (fun _ => some 0) (by decide)

/-! ## Claim C10 — the callback contract of `touch` versus the other ops -/

/-- C10: with `disableTouch` configured, `touch` invokes the supplied
callback synchronously with no error and returns its result instead of a
promise; with no callback supplied it throws a TypeError.  In contrast,
`get`, `set`, `destroy` and `length` attach the callback through
`.asCallback`, so they return a promise and tolerate an absent callback. -/
theorem c10_touch_callback_contract {α : Type} :
    (∀ (ttl now : Int) (db : Db) (sid : String) (p : Payload α),
      touchModel true ttl now db sid p false =
        (db, 0, CallOutcome.throw "fn is not a function")) ∧
    (∀ (ttl now : Int) (db : Db) (sid : String) (p : Payload α),
      touchModel true ttl now db sid p true =
        (db, 0, CallOutcome.syncCallback none)) ∧
    CallOutcome.syncCallback none ≠ CallOutcome.promise ∧
    asCallbackOutcome false = CallOutcome.promise ∧
    asCallbackOutcome true = CallOutcome.promise ∧
    (∀ (db : Db) (sid : String),
      (destroyModel db sid false).2 = CallOutcome.promise) := by
  refine ⟨?_, ?_, by decide, rfl, rfl, ?_⟩
  · intro ttl now db sid p
    simp [touchModel]
  · intro ttl now db sid p
    simp [touchModel]
  · intro db sid
    unfold destroyModel
    cases h : findOne db sid <;> simp

/-! ## Claim C9 — at most one sweep timer per store -/

/-- The sweep timers of this store that are currently scheduled. -/
def ownedActive (s : SweeperState) (w : TimerWorld) : List Nat :=
  w.active.filter (fun t => decide (t ∈ s.allocated))

/-- Well-formedness of a store's sweeper state against the timer world:
scheduled handles are distinct and stale (all below the allocator bound);
every scheduled handle owned by this store is the one referenced by
`expirationInterval`; and the referenced handle is below the bound. -/
def sweeperInv (s : SweeperState) (w : TimerWorld) : Prop :=
  w.active.Nodup ∧
  (∀ x ∈ w.active, x < w.next) ∧
  (∀ x ∈ s.allocated, x < w.next) ∧
  (∀ x ∈ w.active, x ∈ s.allocated → s.expirationInterval = some x) ∧
  (∀ t ∈ s.expirationInterval.toList, t < w.next)

theorem length_le_one_of_nodup_allEq (l : List Nat) (hnd : l.Nodup)
    (h : ∀ x ∈ l, ∀ y ∈ l, x = y) : l.length ≤ 1 := by
  match l with
  | [] => simp
  | [a] => simp
  | a :: b :: tl =>
    exfalso
    have hab : a = b := h a (by simp) b (by simp)
    have hnin : a ∉ b :: tl := (List.nodup_cons.mp hnd).1
    exact hnin (by simp [hab])

theorem ownedActive_length_le_one (s : SweeperState) (w : TimerWorld)
    (h : sweeperInv s w) : (ownedActive s w).length ≤ 1 := by
  obtain ⟨hnd, _, _, h4, _⟩ := h
  apply length_le_one_of_nodup_allEq
  · exact hnd.filter _
  · intro x hx y hy
    have hx' := List.mem_filter.mp hx
    have hy' := List.mem_filter.mp hy
    have ex := h4 x hx'.1 (by simpa using hx'.2)
    have ey := h4 y hy'.1 (by simpa using hy'.2)
    rw [ex] at ey
    exact Option.some_inj.mp ey

theorem stop_spec (s : SweeperState) (w : TimerWorld) (h : sweeperInv s w) :
    sweeperInv (stopExpiringSessions s w).1 (stopExpiringSessions s w).2 ∧
    (stopExpiringSessions s w).1.expirationInterval = none ∧
    (stopExpiringSessions s w).1.allocated = s.allocated ∧
    (stopExpiringSessions s w).2.next = w.next ∧
    (∀ t, s.expirationInterval = some t →
      t ∉ (stopExpiringSessions s w).2.active) := by
  obtain ⟨hnd, hb, hba, h4, h5⟩ := h
  cases hcase : s.expirationInterval with
  | none =>
    have he : stopExpiringSessions s w = (s, w) := by
      simp [stopExpiringSessions, hcase]
    rw [he]
    refine ⟨⟨hnd, hb, hba, h4, h5⟩, hcase, rfl, rfl, ?_⟩
    intro t ht
    simp at ht
  | some t =>
    have he : stopExpiringSessions s w =
        ({ s with expirationInterval := none }, clearIntervalW w t) := by
      simp [stopExpiringSessions, hcase]
    rw [he]
    refine ⟨⟨hnd.filter _, ?_, ?_, ?_, ?_⟩, rfl, rfl, rfl, ?_⟩
    · intro x hx
      exact hb x (List.mem_filter.mp hx).1
    · exact hba
    · intro x hx hxa
      have hx' := List.mem_filter.mp hx
      have hxt : x ≠ t := by simpa using hx'.2
      have h4x := h4 x hx'.1 hxa
      rw [hcase] at h4x
      exact absurd (Option.some_inj.mp h4x).symm hxt
    · intro x hx
      simp at hx
    · intro t' ht'
      have htt : t' = t := (Option.some_inj.mp ht').symm
      subst htt
      intro hmem
      have hmf := List.mem_filter.mp hmem
      simp at hmf

theorem start_sched_inv (s1 : SweeperState) (w1 : TimerWorld)
    (hnd1 : w1.active.Nodup) (hb1 : ∀ x ∈ w1.active, x < w1.next)
    (hba1 : ∀ x ∈ s1.allocated, x < w1.next)
    (h41 : ∀ x ∈ w1.active, x ∈ s1.allocated → s1.expirationInterval = some x)
    (hnone : s1.expirationInterval = none) :
    sweeperInv
      { expirationInterval := some w1.next,
        allocated := w1.next :: s1.allocated }
      { next := w1.next + 1, active := w1.next :: w1.active } := by
  refine ⟨?_, ?_, ?_, ?_, ?_⟩
  · exact List.nodup_cons.mpr
      ⟨fun hmem => absurd (hb1 _ hmem) (lt_irrefl _), hnd1⟩
  · intro x hx
    have hx2 : x ∈ w1.next :: w1.active := hx
    show x < w1.next + 1
    rcases List.mem_cons.mp hx2 with rfl | hx'
    · omega
    · have := hb1 x hx'
      omega
  · intro x hx
    have hx2 : x ∈ w1.next :: s1.allocated := hx
    show x < w1.next + 1
    rcases List.mem_cons.mp hx2 with rfl | hx'
    · omega
    · have := hba1 x hx'
      omega
  · intro x hx hxa
    have hx2 : x ∈ w1.next :: w1.active := hx
    have hxa2 : x ∈ w1.next :: s1.allocated := hxa
    show some w1.next = some x
    rcases List.mem_cons.mp hx2 with rfl | hx'
    · rfl
    · rcases List.mem_cons.mp hxa2 with heq | hxa'
      · exact absurd (heq ▸ hb1 _ hx') (lt_irrefl _)
      · have h4x := h41 x hx' hxa'
        rw [hnone] at h4x
        cases h4x
  · intro t ht
    have ht2 : t ∈ [w1.next] := ht
    have htt : t = w1.next := List.mem_singleton.mp ht2
    subst htt
    show w1.next < w1.next + 1
    omega

/-- C9: from any well-formed sweeper state, `startExpiringSessions` first
cancels any previously scheduled sweep timer (it is no longer active
afterwards), schedules a new one iff `checkExpirationInterval > 0`, and
leaves the store with at most one active sweep timer (and a state that is
again well-formed, so this holds across every sequence of calls). -/
theorem c9_single_timer (interval : Int) (s : SweeperState) (w : TimerWorld)
    (h : sweeperInv s w) :
    sweeperInv (startExpiringSessions interval s w).1
      (startExpiringSessions interval s w).2 ∧
    (ownedActive (startExpiringSessions interval s w).1
      (startExpiringSessions interval s w).2).length ≤ 1 ∧
    (∀ t, s.expirationInterval = some t →
      t ∉ (startExpiringSessions interval s w).2.active) ∧
    ((startExpiringSessions interval s w).1.expirationInterval.isSome ↔
      interval > 0) := by
  obtain ⟨hinv1, hnone, halloc, hnext, hcancel⟩ := stop_spec s w h
  by_cases hi : interval > 0
  · have hs1 : (startExpiringSessions interval s w).1 =
        { expirationInterval := some (stopExpiringSessions s w).2.next,
          allocated := (stopExpiringSessions s w).2.next ::
            (stopExpiringSessions s w).1.allocated } := by
      simp [startExpiringSessions, setIntervalW, hi]
    have hs2 : (startExpiringSessions interval s w).2 =
        { next := (stopExpiringSessions s w).2.next + 1,
          active := (stopExpiringSessions s w).2.next ::
            (stopExpiringSessions s w).2.active } := by
      simp [startExpiringSessions, setIntervalW, hi]
    obtain ⟨hnd1, hb1, hba1, h41, h51⟩ := hinv1
    have hinv2 := start_sched_inv (stopExpiringSessions s w).1
      (stopExpiringSessions s w).2 hnd1 hb1 hba1 h41 hnone
    rw [hs1, hs2]
    refine ⟨hinv2, ownedActive_length_le_one _ _ hinv2, ?_, by simp [hi]⟩
    intro t ht
    have htlt : t < w.next := h.2.2.2.2 t (by simp [ht])
    intro hmem
    rcases List.mem_cons.mp hmem with heq | hmem'
    · rw [hnext] at heq
      omega
    · exact hcancel t ht hmem'
  · have hs : startExpiringSessions interval s w = stopExpiringSessions s w := by
      simp [startExpiringSessions, hi]
    rw [hs]
    refine ⟨hinv1, ownedActive_length_le_one _ _ hinv1, hcancel, ?_⟩
    rw [hnone]
    simp [hi]

/-- C9 witness: a store whose single allocated timer is scheduled satisfies
the invariant, and restarting with a positive interval keeps a timer
scheduled. -/
theorem c9_single_timer_witness :
    sweeperInv { expirationInterval := some 0, allocated := [0] }
      { next := 1, active := [0] } ∧
    ((startExpiringSessions 7 { expirationInterval := some 0, allocated := [0] }
      { next := 1, active := [0] }).1.expirationInterval.isSome ↔
        (7 : Int) > 0) := by
  exact ⟨by unfold sweeperInv; decide,
    (c9_single_timer 7 _ _ (by unfold sweeperInv; decide)).2.2.2⟩
